import Mathlib

set_option linter.unusedVariables false
set_option linter.unnecessarySeqFocus false

/-!
# Verification of the customer-stories extraction pipeline

A shallow embedding, in Lean 4, of the extraction pipeline implemented in
`script.js` of the `customer-stories-scraper` repository: the asset
downloader (`downloadImage`, `getImageExtension`, `generateImageFilename`),
the per-page record extractor, the pagination-detection oracle
(`paginationInfo`) together with the page-loop continuation decision, the
bounded page loop of the test `Extract all stories with pagination
support`, the post-loop asset-download phase, and the final metadata
assembly.  Pure functions of the source become Lean functions; DOM queries
become explicit fields of rendered-state structures; network and
filesystem effects become an explicit environment mapping each requested
URL to the event that settles the request.
-/

namespace Scraper

/-! ## Generic string helpers mirroring the JavaScript primitives used -/

/-- `hasSubstr pat cs` — does `cs` contain `pat` as a contiguous substring?
Mirrors the semantics of the CSS attribute selector `[href*=pat]` and of
JavaScript `String.prototype.includes`. -/
def hasSubstr (pat : List Char) : List Char → Bool
  | [] => pat.isPrefixOf []
  | c :: cs => pat.isPrefixOf (c :: cs) || hasSubstr pat cs

/-- String-level wrapper for `hasSubstr`. -/
def containsStr (s pat : String) : Bool := hasSubstr pat.toList s.toList

/-- Replace the first occurrence of `pat` by `rep` — the semantics of
JavaScript `String.prototype.replace` with a plain-string pattern
(`'...'.replace('Industry: ', '')` in the extractor). -/
def replaceFirstChars (pat rep : List Char) : List Char → List Char
  | [] => []
  | c :: cs =>
    if pat.isPrefixOf (c :: cs) then rep ++ (c :: cs).drop pat.length
    else c :: replaceFirstChars pat rep cs

/-- String-level wrapper for `replaceFirstChars`. -/
def replaceFirst (s pat rep : String) : String :=
  ⟨replaceFirstChars pat.toList rep.toList s.toList⟩

/-- Numeric value of a list of decimal digit characters, most significant
first — the value JavaScript `parseInt` gives to a run of digits. -/
def digitsVal (ds : List Char) : Nat :=
  ds.foldl (fun a c => 10 * a + (c.toNat - 48)) 0

/-- JavaScript `parseInt(s)` (radix 10): skip leading whitespace, optional
sign, then a maximal run of decimal digits; `none` models `NaN`. -/
def parseIntJS (s : String) : Option Int :=
  let cs := s.toList.dropWhile (·.isWhitespace)
  match cs with
  | '-' :: rest =>
    let ds := rest.takeWhile (·.isDigit)
    if ds.isEmpty then none else some (-(digitsVal ds : Int))
  | '+' :: rest =>
    let ds := rest.takeWhile (·.isDigit)
    if ds.isEmpty then none else some (digitsVal ds : Int)
  | _ =>
    let ds := cs.takeWhile (·.isDigit)
    if ds.isEmpty then none else some (digitsVal ds : Int)

/-! ## `getImageExtension` (script.js lines 287–303) -/

/-- Case-insensitively strip the literal `lit` (given lowercase) from the
front of `cs`, returning the remainder on success. -/
def dropLitCI (lit : List Char) (cs : List Char) : Option (List Char) :=
  match lit, cs with
  | [], rest => some rest
  | _ :: _, [] => none
  | l :: ls, c :: rest => if c.toLower = l then dropLitCI ls rest else none

/-- The alternatives of the regex `\.(jpg|jpeg|png|gif|webp|svg)(\?.*)?$`,
in source order. -/
def imageExtAlternatives : List String := ["jpg", "jpeg", "png", "gif", "webp", "svg"]

/-- Try each extension alternative at the position right after a `'.'`:
the remainder after the extension must be empty or start with `'?'`
(mirroring `(\?.*)?$`). -/
def tryExtAlternatives : List String → List Char → Option String
  | [], _ => none
  | e :: es, rest =>
    match dropLitCI e.toList rest with
    | some rem =>
      match rem with
      | [] => some e
      | '?' :: _ => some e
      | _ => tryExtAlternatives es rest
    | none => tryExtAlternatives es rest

/-- Scan left to right for the first position where the anchored-suffix
regex `\.(jpg|jpeg|png|gif|webp|svg)(\?.*)?$` matches; return the captured
extension lowercased. -/
def scanForExt : List Char → Option String
  | [] => none
  | '.' :: rest =>
    match tryExtAlternatives imageExtAlternatives rest with
    | some e => some e
    | none => scanForExt rest
  | _ :: rest => scanForExt rest

/-- `getImageExtension(url, contentType)` of script.js: extension from the
URL suffix when the regex matches, else content-type hints, else `jpg`. -/
def getImageExtension (url : String) (contentType : String) : String :=
  match scanForExt url.toList with
  | some e => e
  | none =>
    if containsStr contentType "jpeg" || containsStr contentType "jpg" then "jpg"
    else if containsStr contentType "png" then "png"
    else if containsStr contentType "gif" then "gif"
    else if containsStr contentType "webp" then "webp"
    else if containsStr contentType "svg" then "svg"
    else "jpg"

/-! ## Filename derivation (script.js lines 313–315 and 569–572) -/

/-- `generateImageFilename(companyName, globalId, type, extension)` —
the company name is unused in the source ("kept for compatibility"). -/
def generateImageFilename (companyName globalId type extension : String) : String :=
  s!"{globalId}_{type}.{extension}"

/-- One character of the regex replacement `[^a-zA-Z0-9] → '_'`. -/
def sanitizeChar (c : Char) : Char := if c.isAlphanum then c else '_'

/-- `product.name.replace(/[^a-zA-Z0-9]/g, '_').toLowerCase()` —
script.js line 570 (replace every non-alphanumeric character, then
lowercase), modelled character by character. -/
def productSafeName (name : String) : String :=
  ⟨(name.toList.map sanitizeChar).map Char.toLower⟩

/-- Modelled from the spec's wording for comparison: "sanitization
lowercases the product name and replaces every non-alphanumeric character
with an underscore" — lowercase first, then replace. -/
def sanitizeSpecOrder (name : String) : String :=
  ⟨(name.toList.map Char.toLower).map sanitizeChar⟩

/-! ## JavaScript `String.prototype.trim` -/

/-- Character-level trim: drop leading and trailing whitespace. -/
def trimChars (cs : List Char) : List Char :=
  ((cs.dropWhile Char.isWhitespace).reverse.dropWhile Char.isWhitespace).reverse

/-- JavaScript `.trim()` on a string. -/
def trimJS (s : String) : String := ⟨trimChars s.toList⟩

/-! ## The Asset Fetcher: `downloadImage` (script.js lines 233–279)

The network and filesystem are an explicit environment: for each URL that
`protocol.get` requests, the environment says which event settles the
request — a response (with status code, `Location` header and the outcome
of piping the body into the file stream), a request-level `'error'`
event, or the 30-second timeout firing before any response completes. -/

/-- What happens to the `fs.createWriteStream(localPath)` while the
response body is piped into it. `stalled` means the transfer stops
mid-write and the 30 s timeout fires (`request.destroy()`), leaving the
partially written file in place. -/
inductive WriteOutcome where
  | finish
  | fsError (msg : String)
  | stalled
deriving DecidableEq, Repr

/-- The event that settles one HTTP(S) request. -/
inductive ReqEvent where
  | response (statusCode : Nat) (location : Option String) (write : WriteOutcome)
  | reqError (msg : String)
  | timeout
deriving DecidableEq, Repr

/-- The network/filesystem environment of a run. -/
abbrev Net := String → ReqEvent

/-- The typed failures `downloadImage` rejects with. -/
inductive DLError where
  | ioError (msg : String)
  | badStatus (code : Nat)
  | netError (msg : String)
  | timeout
deriving DecidableEq, Repr

/-- How the promise returned by `downloadImage` settles: `resolved none`
is the no-op success for empty/`data:` URLs, `resolved (some path)` a
successful download, `rejected` a typed failure.  `pending` models a
promise that never settles (an unbounded redirect chain). -/
inductive DLOutcome where
  | resolved (value : Option String)
  | rejected (e : DLError)
  | pending
deriving DecidableEq, Repr

/-- State of the destination path after the call. -/
inductive FileEffect where
  | absent
  | written
  | partialLeft
deriving DecidableEq, Repr

/-- `downloadImage(imageUrl, localPath)`, script.js lines 233–279.
`fuel` bounds the depth of the 301/302 redirect recursion (the source has
no hop limit; exhausted fuel is the never-settling chain).  Returns how
the promise settles together with the final state of `localPath`.
The directory-creation step (lines 240–243) is effect-idempotent and not
modelled. -/
def downloadImage (net : Net) : Nat → String → String → DLOutcome × FileEffect
  | fuel, imageUrl, localPath =>
    if imageUrl = "" || "data:".toList.isPrefixOf imageUrl.toList then
      (.resolved none, .absent)
    else
      match net imageUrl with
      | .response statusCode location write =>
        if statusCode = 200 then
          match write with
          | .finish => (.resolved (some localPath), .written)
          | .fsError msg => (.rejected (.ioError msg), .absent)
          | .stalled => (.rejected .timeout, .partialLeft)
        else if statusCode = 301 || statusCode = 302 then
          match fuel with
          | 0 => (.pending, .absent)
          | fuel' + 1 => downloadImage net fuel' (location.getD "") localPath
        else
          (.rejected (.badStatus statusCode), .absent)
      | .reqError msg => (.rejected (.netError msg), .absent)
      | .timeout => (.rejected .timeout, .absent)

/-! ## The Pagination Oracle (script.js lines 436–495) and the loop's
continuation decision (lines 500–515) -/

/-- The DOM state the pagination detection queries, one field per
`querySelector` / attribute read in the `page.evaluate` block. -/
structure PageState where
  paginationContainerPresent : Bool
  paginationContainerHidden : Bool
  showValueText : Option String
  showTotalText : Option String
  announcementText : Option String
  nextButtonPresent : Bool
  nextButtonDisabledClass : Bool
  nextButtonAriaDisabled : Option String
deriving DecidableEq, Repr

/-- Strategy 1 precondition: the `oc-pagination` container exists and has
the `d-none` class (line 439). -/
def isPaginationHidden (st : PageState) : Bool :=
  st.paginationContainerPresent && st.paginationContainerHidden

/-- `showValue ? parseInt(showValue.textContent) : 0` (line 444);
`none` models `NaN`. -/
def currentShowing (st : PageState) : Option Int :=
  match st.showValueText with
  | some t => parseIntJS t
  | none => some 0

/-- `showTotal ? parseInt(showTotal.textContent) : 0` (line 445). -/
def totalResults (st : PageState) : Option Int :=
  match st.showTotalText with
  | some t => parseIntJS t
  | none => some 0

/-- `currentShowing === totalResults && totalResults > 0` (line 446);
`NaN` compares unequal to everything. -/
def allResultsOnOnePage (st : PageState) : Bool :=
  match currentShowing st, totalResults st with
  | some a, some b => a == b && decide (0 < b)
  | _, _ => false

/-- Strategy 4: `nextButton && (classList.contains('disabled') ||
aria-disabled === 'true')` (lines 454–458). -/
def nextButtonDisabled (st : PageState) : Bool :=
  st.nextButtonPresent && (st.nextButtonDisabledClass || st.nextButtonAriaDisabled == some "true")

/-- Strip the literal `lit` (case-sensitively) from the front of `cs`. -/
def dropLit (lit : List Char) (cs : List Char) : Option (List Char) :=
  match lit, cs with
  | [], rest => some rest
  | _ :: _, [] => none
  | l :: ls, c :: rest => if c = l then dropLit ls rest else none

/-- Try the regex `Page (\d+) of (\d+)` at exactly this position. -/
def pageOfAt (cs : List Char) : Option (Nat × Nat) :=
  match dropLit "Page ".toList cs with
  | none => none
  | some r1 =>
    let ds1 := r1.takeWhile (·.isDigit)
    if ds1.isEmpty then none
    else
      match dropLit " of ".toList (r1.drop ds1.length) with
      | none => none
      | some r2 =>
        let ds2 := r2.takeWhile (·.isDigit)
        if ds2.isEmpty then none else some (digitsVal ds1, digitsVal ds2)

/-- `paginationText.match(/Page (\d+) of (\d+)/)` — leftmost match, the
two captured digit runs read by `parseInt` (lines 450–451). -/
def findPageOf : List Char → Option (Nat × Nat)
  | [] => none
  | c :: cs =>
    match pageOfAt (c :: cs) with
    | some r => some r
    | none => findPageOf cs

/-- The object the pagination `page.evaluate` block returns
(`showingResults` is presentation-only and omitted). -/
structure PaginationInfo where
  currentPage : Option Nat
  totalPages : Option Nat
  hasNext : Bool
  singlePage : Bool
  reason : String
deriving DecidableEq, Repr

/-- The pagination detection, script.js lines 436–495: strategy 1
(hidden container + all results shown), else strategy 3 (announcement
text), else strategy 4 (next-button state). -/
def paginationInfo (st : PageState) : PaginationInfo :=
  if isPaginationHidden st && allResultsOnOnePage st then
    { currentPage := some 1, totalPages := some 1, hasNext := false, singlePage := true
      reason := "pagination hidden and all results shown" }
  else
    match findPageOf (st.announcementText.getD "").toList with
    | some (x, y) =>
      { currentPage := some x, totalPages := some y, hasNext := decide (x < y)
        singlePage := decide (y = 1), reason := "pagination announcement" }
    | none =>
      { currentPage := none, totalPages := none, hasNext := !nextButtonDisabled st
        singlePage := nextButtonDisabled st, reason := "next button state" }

/-- The loop's continuation decision on `paginationInfo`, script.js lines
500–515: `singlePage` stops; a truthy `totalPages` with
`currentPage >= totalPages` stops; `hasNext === false` stops; otherwise
the loop advances (`currentPage++`). -/
def decideHasNextPage (info : PaginationInfo) (currentPage : Nat) : Bool :=
  if info.singlePage then false
  else if (match info.totalPages with
           | some tp => decide (tp ≠ 0) && decide (tp ≤ currentPage)
           | none => false) then false
  else if info.hasNext == false then false
  else true

/-! ## The Record Extractor (script.js lines 370–430) -/

/-- An `<img>` element: its `src` and `alt` attributes (`none` when the
attribute is missing, in which case `getAttribute` returns `null` and the
source falls back to `''`). -/
structure ImgEl where
  src : Option String
  alt : Option String
deriving DecidableEq, Repr

/-- One `.related-products__product` element. -/
structure ProductEl where
  labelText : Option String
  icon : Option ImgEl
deriving DecidableEq, Repr

/-- One `.card--style-customer-story` element, one field per selector the
extractor queries.  `anchorHrefs` lists the `href` attributes of the
card's `<a>` descendants in document order, backing the
`a[href*="/customers/story/"]` selector. -/
structure Card where
  titleText : Option String
  industryText : Option String
  anchorHrefs : List String
  logoImg : Option ImgEl
  headerImg : Option ImgEl
  productEls : List ProductEl
deriving DecidableEq, Repr

/-- A product reference of a story record. `iconLocal` is absent until
the download phase populates it. -/
structure Product where
  name : String
  icon : String
  iconAlt : String
  iconLocal : Option String
deriving DecidableEq, Repr

/-- `story.company`. -/
structure Company where
  logo : String
  logoLocal : Option String
deriving DecidableEq, Repr

/-- `story.media`. -/
structure MediaAssets where
  headerImage : String
  headerImageAlt : String
  headerImageLocal : Option String
deriving DecidableEq, Repr

/-- One StoryRecord (the `extractedAt` wall-clock timestamp is
boundary-adjacent and omitted). -/
structure Story where
  page : Nat
  positionOnPage : Nat
  globalId : String
  title : String
  industry : String
  storyUrl : String
  company : Company
  media : MediaAssets
  microsoftProducts : List Product
deriving DecidableEq, Repr

/-- Product extraction inside a card (lines 386–399): each
`.related-products__product` contributes a product exactly when its
`.label` element exists; icon fields fall back to `''`. -/
def extractProducts (els : List ProductEl) : List Product :=
  els.filterMap fun pe =>
    match pe.labelText with
    | some lbl =>
      some { name := trimJS lbl
             icon := match pe.icon with | some im => im.src.getD "" | none => ""
             iconAlt := match pe.icon with | some im => im.alt.getD "" | none => ""
             iconLocal := none }
    | none => none

/-- Extraction of one card at 0-based position `index` (lines 374–427):
a story is produced exactly when the title element and the canonical
story link (`a[href*="/customers/story/"]`) are both found. -/
def extractCard (pageNum : Nat) (index : Nat) (card : Card) : Option Story :=
  match card.titleText,
        card.anchorHrefs.find? fun href =>
          hasSubstr "/customers/story/".toList href.toList with
  | some titleText, some href =>
    some { page := pageNum
           positionOnPage := index + 1
           globalId := s!"p{pageNum}_{index + 1}"
           title := trimJS titleText
           industry := match card.industryText with
             | some t => trimJS (replaceFirst t "Industry: " "")
             | none => ""
           storyUrl := href
           company := { logo := match card.logoImg with
                          | some im => im.src.getD ""
                          | none => ""
                        logoLocal := none }
           media := { headerImage := match card.headerImg with
                        | some im => im.src.getD ""
                        | none => ""
                      headerImageAlt := match card.headerImg with
                        | some im => im.alt.getD ""
                        | none => ""
                      headerImageLocal := none }
           microsoftProducts := extractProducts card.productEls }
  | _, _ => none

/-- `cards.forEach((card, index) => ...)`: walk the card list with its
0-based index, keeping the successfully extracted stories in order. -/
def extractStoriesAux (pageNum : Nat) : Nat → List Card → List Story
  | _, [] => []
  | index, card :: rest =>
    match extractCard pageNum index card with
    | some s => s :: extractStoriesAux pageNum (index + 1) rest
    | none => extractStoriesAux pageNum (index + 1) rest

/-- The per-page extraction `page.evaluate` block (lines 370–430). -/
def extractStories (pageNum : Nat) (cards : List Card) : List Story :=
  extractStoriesAux pageNum 0 cards

/-! ## The page loop (script.js lines 335–516) -/

/-- One rendered page: the story cards found by
`page.$$('.card--style-customer-story')` and the pagination-related DOM
state. -/
structure PageData where
  cards : List Card
  state : PageState

/-- The rendering environment: what each page URL
(`baseUrl` / `baseUrl&page=N`) renders to, indexed by page number. -/
abbrev SiteEnv := Nat → PageData

/-- The `while (hasNextPage && currentPage <= 5)` loop.  `fuel` is a
structural-recursion bound; started at `6` with `currentPage = 1` it
never runs out before the `currentPage <= 5` guard fails, so the function
is exactly the source loop.  Returns the final value of `currentPage`
and the accumulated `allStories`. -/
def loopAux (site : SiteEnv) : Nat → Nat → List Story → Nat × List Story
  | 0, currentPage, allStories => (currentPage, allStories)
  | fuel + 1, currentPage, allStories =>
    if currentPage ≤ 5 then
      let pd := site currentPage
      if pd.cards.isEmpty then (currentPage, allStories)
      else
        let pageStories := extractStories currentPage pd.cards
        let acc := allStories ++ pageStories
        if decideHasNextPage (paginationInfo pd.state) currentPage then
          loopAux site fuel (currentPage + 1) acc
        else (currentPage, acc)
    else (currentPage, allStories)

/-- The whole page loop as run by the test. -/
def extractionLoop (site : SiteEnv) : Nat × List Story := loopAux site 6 1 []

/-- Modelled from the spec: the number of pages actually visited
(rendered — `page.goto` reached during a loop iteration).  Ghost
instrumentation of `loopAux` used only to compare against
`metadata.totalPages`; it mirrors the loop's control flow exactly. -/
def visitedAux (site : SiteEnv) : Nat → Nat → Nat
  | 0, _ => 0
  | fuel + 1, currentPage =>
    if currentPage ≤ 5 then
      let pd := site currentPage
      if pd.cards.isEmpty then 1
      else if decideHasNextPage (paginationInfo pd.state) currentPage then
        1 + visitedAux site fuel (currentPage + 1)
      else 1
    else 0

/-- Modelled from the spec: pages actually visited by the whole run. -/
def pagesVisited (site : SiteEnv) : Nat := visitedAux site 6 1

/-! ## Metadata assembly (script.js lines 620–632) -/

/-- One step of `acc[story.page] = (acc[story.page] || 0) + 1` on a
JavaScript object, modelled as an insertion-ordered association list. -/
def bumpPage : List (Nat × Nat) → Nat → List (Nat × Nat)
  | [], p => [(p, 1)]
  | (k, v) :: rest, p =>
    if k = p then (k, v + 1) :: rest else (k, v) :: bumpPage rest p

/-- `allStories.reduce(...)` building `storiesPerPage` (lines 626–629). -/
def storiesPerPage (stories : List Story) : List (Nat × Nat) :=
  stories.foldl (fun acc s => bumpPage acc s.page) []

/-- Sum of the values of a `storiesPerPage` object. -/
def sumVals (m : List (Nat × Nat)) : Nat := (m.map Prod.snd).sum

/-- `paginatedResults.metadata` (the wall-clock `extractionDate` and the
verbatim `baseUrl` copy are omitted). -/
structure RunMetadata where
  totalPages : Nat
  totalStories : Nat
  storiesPerPage : List (Nat × Nat)
deriving DecidableEq, Repr

/-! ## The post-loop download phase (script.js lines 530–586) -/

/-- `logoFilename` of lines 537–538. -/
def logoFilename (story : Story) : String :=
  generateImageFilename "" story.globalId "logo" (getImageExtension story.company.logo "")

/-- `headerFilename` of lines 552–553. -/
def headerFilename (story : Story) : String :=
  generateImageFilename "" story.globalId "header" (getImageExtension story.media.headerImage "")

/-- `iconFilename` of lines 569–571. -/
def iconFilename (globalId : String) (product : Product) : String :=
  generateImageFilename "" globalId ("product_" ++ productSafeName product.name)
    (getImageExtension product.icon "")

/-- Company-logo download for one story (lines 536–548): attempted only
for a truthy (non-empty) `story.company.logo`; the `logoLocal` field is
assigned whenever the `downloadImage` promise resolves; a rejection is
caught and leaves the story unchanged.  `none` propagates a
never-settling download (the run would hang). -/
def downloadLogoStep (net : Net) (fuel : Nat) (story : Story) : Option Story :=
  if story.company.logo = "" then some story
  else
    match (downloadImage net fuel story.company.logo ("media/" ++ logoFilename story)).1 with
    | .resolved _ =>
      some { story with company := { story.company with logoLocal := some ("media/" ++ logoFilename story) } }
    | .rejected _ => some story
    | .pending => none

/-- Header-image download for one story (lines 551–563). -/
def downloadHeaderStep (net : Net) (fuel : Nat) (story : Story) : Option Story :=
  if story.media.headerImage = "" then some story
  else
    match (downloadImage net fuel story.media.headerImage ("media/" ++ headerFilename story)).1 with
    | .resolved _ =>
      some { story with media := { story.media with headerImageLocal := some ("media/" ++ headerFilename story) } }
    | .rejected _ => some story
    | .pending => none

/-- One iteration of the product-icon loop body (lines 567–581):
attempted only for a truthy `product.icon`; `iconLocal` is assigned
whenever the promise resolves. -/
def downloadIconStep (net : Net) (fuel : Nat) (globalId : String) (product : Product) :
    Option Product :=
  if product.icon = "" then some product
  else
    match (downloadImage net fuel product.icon ("media/" ++ iconFilename globalId product)).1 with
    | .resolved _ => some { product with iconLocal := some ("media/" ++ iconFilename globalId product) }
    | .rejected _ => some product
    | .pending => none

/-- Product-icon downloads for one story (lines 566–582), one product at
a time in order. -/
def downloadIconsAux (net : Net) (fuel : Nat) (globalId : String) :
    List Product → Option (List Product)
  | [] => some []
  | product :: rest =>
    match downloadIconStep net fuel globalId product with
    | none => none
    | some p' =>
      match downloadIconsAux net fuel globalId rest with
      | none => none
      | some rest' => some (p' :: rest')

/-- The whole per-story image-processing step of the download loop. -/
def processStory (net : Net) (fuel : Nat) (story : Story) : Option Story :=
  match downloadLogoStep net fuel story with
  | none => none
  | some s1 =>
    match downloadHeaderStep net fuel s1 with
    | none => none
    | some s2 =>
      match downloadIconsAux net fuel s2.globalId s2.microsoftProducts with
      | none => none
      | some ps => some { s2 with microsoftProducts := ps }

/-- `for (let i = 0; i < allStories.length; i++) { ... }`. -/
def processAllStories (net : Net) (fuel : Nat) : List Story → Option (List Story)
  | [] => some []
  | s :: rest =>
    match processStory net fuel s with
    | none => none
    | some s' =>
      match processAllStories net fuel rest with
      | none => none
      | some rest' => some (s' :: rest')

/-- The complete run: page loop, the
`expect(allStories.length).toBeGreaterThan(0)` gate (line 519 — an empty
extraction fails the test and writes no dataset), the download phase,
and the final metadata assembly.  `none` is a run that does not complete
with a dataset. -/
def runPipeline (net : Net) (fuel : Nat) (site : SiteEnv) :
    Option (RunMetadata × List Story) :=
  let r := extractionLoop site
  if r.2.isEmpty then none
  else
    match processAllStories net fuel r.2 with
    | none => none
    | some stories =>
      some ({ totalPages := r.1
              totalStories := stories.length
              storiesPerPage := storiesPerPage stories }, stories)

/-- `globalId` as the spec describes it: the string `p{page}_{position}`. -/
def mkGid (page pos : Nat) : String := s!"p{page}_{pos}"

/-! ## Auxiliary predicates used by the theorems -/

/-- Lexicographic extraction order on records. -/
def storyBefore (a b : Story) : Prop :=
  a.page < b.page ∨ (a.page = b.page ∧ a.positionOnPage < b.positionOnPage)

/-- Lexicographic order on `(page, positionOnPage)` pairs. -/
def pairLt (a b : Nat × Nat) : Prop :=
  a.1 < b.1 ∨ (a.1 = b.1 ∧ a.2 < b.2)

/-- `(page, positionOnPage)` of a record. -/
def pagePos (s : Story) : Nat × Nat := (s.page, s.positionOnPage)

/-- What extraction guarantees about every record it emits. -/
def ExtractedInv (s : Story) : Prop :=
  s.globalId = mkGid s.page s.positionOnPage ∧
  s.company.logoLocal = none ∧
  s.media.headerImageLocal = none ∧
  (∀ pr ∈ s.microsoftProducts, pr.iconLocal = none) ∧
  s.storyUrl ≠ ""

/-- Does a `downloadImage` promise resolve (successful download or the
no-op success for empty/`data:` URLs)? -/
def dlResolves (o : DLOutcome) : Bool :=
  match o with
  | .resolved _ => true
  | _ => false

/-! ## Concrete environments for witnesses and counterexamples -/

/-- A well-formed story card. -/
def demoCard : Card :=
  { titleText := some "Contoso modernises with AI"
    industryText := some "Industry: Retail"
    anchorHrefs := ["/customers/story/contoso"]
    logoImg := none, headerImg := none, productEls := [] }

/-- A card whose title element exists but holds only whitespace. -/
def wsCard : Card :=
  { titleText := some "   "
    industryText := none
    anchorHrefs := ["/customers/story/blank"]
    logoImg := none, headerImg := none, productEls := [] }

/-- A page state with no pagination signals at all: container absent,
no announcement, no next button. -/
def contState : PageState :=
  { paginationContainerPresent := false, paginationContainerHidden := false
    showValueText := none, showTotalText := none, announcementText := none
    nextButtonPresent := false, nextButtonDisabledClass := false
    nextButtonAriaDisabled := none }

/-- A page state whose next button exists and carries the `disabled`
class. -/
def stopState : PageState :=
  { contState with nextButtonPresent := true, nextButtonDisabledClass := true }

/-- Hidden pagination container with `12 of 12` results shown. -/
def hiddenState : PageState :=
  { contState with paginationContainerPresent := true
                   paginationContainerHidden := true
                   showValueText := some "12", showTotalText := some "12" }

/-- Announcement `Page 2 of 5`. -/
def page2of5State : PageState := { contState with announcementText := some "Page 2 of 5" }

/-- Announcement `Page 5 of 5`. -/
def page5of5State : PageState := { contState with announcementText := some "Page 5 of 5" }

/-- A site on which every page has one story card and no pagination
signal, so the oracle's fallback keeps the loop going until the hard
page cap. -/
def contSite : SiteEnv := fun _ => { cards := [demoCard], state := contState }

/-- A site whose first page says stop (disabled next button). -/
def oneStopSite : SiteEnv := fun _ => { cards := [demoCard], state := stopState }

/-- The record that extraction produces from `demoCard` on page 1 at
position 1. -/
def demoStory : Story :=
  { page := 1, positionOnPage := 1, globalId := "p1_1"
    title := "Contoso modernises with AI", industry := "Retail"
    storyUrl := "/customers/story/contoso"
    company := { logo := "", logoLocal := none }
    media := { headerImage := "", headerImageAlt := "", headerImageLocal := none }
    microsoftProducts := [] }

/-- A card carrying a company logo, a header image and one product icon. -/
def assetCard : Card :=
  { titleText := some "Fabrikam"
    industryText := none
    anchorHrefs := ["/customers/story/fabrikam"]
    logoImg := some { src := some "http://img.example/logo.png", alt := some "logo" }
    headerImg := some { src := some "http://img.example/header.jpg", alt := some "h" }
    productEls := [{ labelText := some "Azure AI"
                     icon := some { src := some "http://img.example/icon.svg", alt := some "i" } }] }

/-- A single-page site whose one card carries all three asset kinds. -/
def assetSite : SiteEnv := fun p =>
  if p = 1 then { cards := [assetCard], state := stopState }
  else { cards := [], state := stopState }

/-- Every request gets a 200 response and a clean write. -/
def netOkFinish : Net := fun _ => .response 200 none .finish

/-- Every request gets a 307 Temporary Redirect response. -/
def net307 : Net := fun _ => .response 307 (some "http://img.example/next") .finish

/-- Every request gets a 204 No Content response. -/
def net204 : Net := fun _ => .response 204 none .finish

/-- Every request gets a 200 response whose body transfer stalls until
the 30 s timeout. -/
def netStalled : Net := fun _ => .response 200 none .stalled

/-- Every request gets a 200 response whose file write fails. -/
def netFsError : Net := fun _ => .response 200 none (.fsError "EIO")

/-- One 301 hop, then a clean 200. -/
def netRedirectOnce : Net := fun url =>
  if url = "http://a.example/logo" then .response 301 (some "http://b.example/logo.png") .finish
  else .response 200 none .finish

/-- A story whose company logo is an inline `data:` URL. -/
def dataUrlStory : Story :=
  { page := 1, positionOnPage := 1, globalId := "p1_1"
    title := "T", industry := "", storyUrl := "/customers/story/x"
    company := { logo := "data:image/png;base64,AAAA", logoLocal := none }
    media := { headerImage := "", headerImageAlt := "", headerImageLocal := none }
    microsoftProducts := [] }

/-- A story with one remote header image and one remote product icon. -/
def iconStory : Story :=
  { page := 1, positionOnPage := 2, globalId := "p1_2"
    title := "T2", industry := "", storyUrl := "/customers/story/y"
    company := { logo := "", logoLocal := none }
    media := { headerImage := "http://img.example/h.png", headerImageAlt := ""
               headerImageLocal := none }
    microsoftProducts := [{ name := "Azure AI", icon := "http://img.example/i.svg"
                            iconAlt := "", iconLocal := none }] }

/-- Bridge: `Char.isUpper` as an arithmetic condition on `Char.toNat`. -/
theorem isUpper_iff_toNat {c : Char} :
    c.isUpper = true ↔ (65 ≤ c.toNat ∧ c.toNat ≤ 90) := by
  simp only [Char.isUpper, Bool.and_eq_true, decide_eq_true_eq, ge_iff_le,
    UInt32.le_def, BitVec.le_def, UInt32.toBitVec_ofNat, BitVec.toNat_ofNat,
    Char.toNat, UInt32.toNat]

theorem toLower_eq_self_of_not_upper {c : Char} (h : c.isUpper = false) :
    c.toLower = c := by
  rw [Char.toLower]
  rw [if_neg]
  intro hc
  rw [← isUpper_iff_toNat] at hc
  rw [h] at hc
  exact Bool.false_ne_true hc

/-- Bridge: `Char.isLower` as an arithmetic condition on `Char.toNat`. -/
theorem isLower_iff_toNat {c : Char} :
    c.isLower = true ↔ (97 ≤ c.toNat ∧ c.toNat ≤ 122) := by
  simp only [Char.isLower, Bool.and_eq_true, decide_eq_true_eq, ge_iff_le,
    UInt32.le_def, BitVec.le_def, UInt32.toBitVec_ofNat, BitVec.toNat_ofNat,
    Char.toNat, UInt32.toNat]

theorem toNat_ofNat_of_valid {m : Nat} (h : m.isValidChar) :
    (Char.ofNat m).toNat = m := by
  rw [Char.ofNat, dif_pos h]
  rfl

theorem toLower_of_isUpper {c : Char} (h : c.isUpper = true) :
    c.toLower = Char.ofNat (c.toNat + 32) := by
  rw [Char.toLower]
  rw [if_pos]
  exact isUpper_iff_toNat.mp h

theorem isLower_toLower_of_isUpper {c : Char} (h : c.isUpper = true) :
    c.toLower.isLower = true := by
  have h' := isUpper_iff_toNat.mp h
  have hv : (c.toNat + 32).isValidChar := Or.inl (by omega)
  rw [toLower_of_isUpper h, isLower_iff_toNat, toNat_ofNat_of_valid hv]
  omega

/-- The regex replacement and ASCII lowercasing commute character-wise. -/
theorem sanitizeChar_toLower_comm (c : Char) :
    (sanitizeChar c).toLower = sanitizeChar c.toLower := by
  by_cases hU : c.isUpper = true
  · have halnum : c.isAlphanum = true := by
      simp [Char.isAlphanum, Char.isAlpha, hU]
    have halnum2 : c.toLower.isAlphanum = true := by
      simp [Char.isAlphanum, Char.isAlpha, isLower_toLower_of_isUpper hU]
    rw [sanitizeChar, if_pos halnum, sanitizeChar, if_pos halnum2]
  · have h0 : c.isUpper = false := by simpa using hU
    have h1 : c.toLower = c := toLower_eq_self_of_not_upper h0
    rw [h1]
    by_cases ha : c.isAlphanum = true
    · rw [sanitizeChar, if_pos ha, h1]
    · have ha' : ¬ c.isAlphanum = true := ha
      rw [sanitizeChar, if_neg ha']
      rfl

/-! ## Decimal representation of naturals: `Nat.repr` facts -/

theorem toDigitsCore_append (b : Nat) :
    ∀ (f n : Nat) (acc : List Char),
      Nat.toDigitsCore b f n acc = Nat.toDigitsCore b f n [] ++ acc := by
  intro f
  induction f with
  | zero => intro n acc; simp [Nat.toDigitsCore]
  | succ f ih =>
    intro n acc
    simp only [Nat.toDigitsCore]
    by_cases h : n / b = 0
    · simp [h]
    · simp only [h, if_false]
      rw [ih (n / b) [Nat.digitChar (n % b)], ih (n / b) (Nat.digitChar (n % b) :: acc)]
      simp

theorem mem_toDigitsCore_ten :
    ∀ (f n : Nat) (acc : List Char) (c : Char),
      c ∈ Nat.toDigitsCore 10 f n acc → c ∈ acc ∨ ∃ d, d < 10 ∧ c = Nat.digitChar d := by
  intro f
  induction f with
  | zero => intro n acc c h; left; simpa [Nat.toDigitsCore] using h
  | succ f ih =>
    intro n acc c h
    simp only [Nat.toDigitsCore] at h
    by_cases h0 : n / 10 = 0
    · rw [if_pos h0] at h
      rcases List.mem_cons.mp h with h | h
      · right; exact ⟨n % 10, Nat.mod_lt _ (by norm_num), h⟩
      · left; exact h
    · rw [if_neg h0] at h
      rcases ih (n / 10) _ c h with h | h
      · rcases List.mem_cons.mp h with h | h
        · right; exact ⟨n % 10, Nat.mod_lt _ (by norm_num), h⟩
        · left; exact h
      · right; exact h

theorem digitChar_isDigit : ∀ d < 10, (Nat.digitChar d).isDigit = true := by
  decide

theorem digitChar_toNat : ∀ d < 10, (Nat.digitChar d).toNat = 48 + d := by
  decide

theorem digitsVal_append_singleton (xs : List Char) (c : Char) :
    digitsVal (xs ++ [c]) = 10 * digitsVal xs + (c.toNat - 48) := by
  simp [digitsVal, List.foldl_append]

theorem digitsVal_toDigitsCore :
    ∀ (f n : Nat), n < 10 ^ f → digitsVal (Nat.toDigitsCore 10 f n []) = n := by
  intro f
  induction f with
  | zero =>
    intro n h
    interval_cases n
    simp [Nat.toDigitsCore, digitsVal]
  | succ f ih =>
    intro n h
    simp only [Nat.toDigitsCore]
    by_cases h0 : n / 10 = 0
    · rw [if_pos h0]
      have hn : n < 10 := by omega
      rw [Nat.mod_eq_of_lt hn]
      simp only [digitsVal, List.foldl, digitChar_toNat n hn]
      omega
    · rw [if_neg h0]
      rw [toDigitsCore_append 10 f (n / 10) [Nat.digitChar (n % 10)]]
      rw [digitsVal_append_singleton]
      have hdiv : n / 10 < 10 ^ f := by
        rw [Nat.div_lt_iff_lt_mul (by norm_num : (0:Nat) < 10)]
        calc n < 10 ^ (f + 1) := h
        _ = 10 ^ f * 10 := by ring
      rw [ih (n / 10) hdiv]
      rw [digitChar_toNat (n % 10) (Nat.mod_lt _ (by norm_num))]
      omega

theorem digitsVal_repr (n : Nat) : digitsVal (Nat.repr n).toList = n := by
  have hlt : n < 10 ^ (n + 1) :=
    calc n < 10 ^ n := Nat.lt_pow_self (by norm_num) n
    _ ≤ 10 ^ (n + 1) := Nat.pow_le_pow_right (by norm_num) (Nat.le_succ n)
  simpa [Nat.repr, Nat.toDigits, List.asString, String.toList] using
    digitsVal_toDigitsCore (n + 1) n hlt

theorem repr_injective {m n : Nat} (h : Nat.repr m = Nat.repr n) : m = n := by
  have h1 := digitsVal_repr m
  rw [h] at h1
  exact h1.symm.trans (digitsVal_repr n)

theorem repr_chars_digit {n : Nat} {c : Char} (h : c ∈ (Nat.repr n).toList) :
    c.isDigit = true := by
  simp only [Nat.repr, Nat.toDigits, List.asString, String.toList] at h
  rcases mem_toDigitsCore_ten (n + 1) n [] c h with h | ⟨d, hd, rfl⟩
  · simp at h
  · exact digitChar_isDigit d hd

theorem underscore_not_mem_repr (n : Nat) : '_' ∉ (Nat.repr n).toList := by
  intro hm
  have := repr_chars_digit hm
  simp at this

theorem append_cons_underscore_inj :
    ∀ (xs : List Char) (ys xs' ys' : List Char),
      '_' ∉ xs → '_' ∉ xs' →
      xs ++ '_' :: ys = xs' ++ '_' :: ys' → xs = xs' ∧ ys = ys' := by
  intro xs
  induction xs with
  | nil =>
    intro ys xs' ys' _ hx' h
    cases xs' with
    | nil => simpa using h
    | cons a as =>
      exfalso
      simp only [List.nil_append, List.cons_append, List.cons.injEq] at h
      exact hx' (h.1 ▸ List.mem_cons_self a as)
  | cons x xt ih =>
    intro ys xs' ys' hx hx' h
    cases xs' with
    | nil =>
      exfalso
      simp only [List.nil_append, List.cons_append, List.cons.injEq] at h
      exact hx (h.1 ▸ List.mem_cons_self x xt)
    | cons a as =>
      simp only [List.cons_append, List.cons.injEq] at h
      obtain ⟨rfl, h2⟩ := h
      have hxt : '_' ∉ xt := fun hm => hx (List.mem_cons_of_mem _ hm)
      have has : '_' ∉ as := fun hm => hx' (List.mem_cons_of_mem _ hm)
      obtain ⟨h3, h4⟩ := ih ys as ys' hxt has h2
      exact ⟨by rw [h3], h4⟩

theorem mkGid_toList (a b : Nat) :
    (mkGid a b).toList = 'p' :: ((Nat.repr a).toList ++ '_' :: (Nat.repr b).toList) := by
  simp only [mkGid, toString, String.toList]
  simp [String.data_append]

theorem mkGid_inj {a b c d : Nat} (h : mkGid a b = mkGid c d) : a = c ∧ b = d := by
  have hd := congrArg String.toList h
  rw [mkGid_toList, mkGid_toList] at hd
  simp only [List.cons.injEq, true_and] at hd
  obtain ⟨h1, h2⟩ := append_cons_underscore_inj _ _ _ _
    (underscore_not_mem_repr a) (underscore_not_mem_repr c) hd
  constructor
  · exact repr_injective (by apply String.ext; exact h1)
  · exact repr_injective (by apply String.ext; exact h2)

/-! ## Extraction lemmas -/

theorem extractProducts_iconLocal {els : List ProductEl} :
    ∀ pr ∈ extractProducts els, pr.iconLocal = none := by
  intro pr hm
  simp only [extractProducts, List.mem_filterMap] at hm
  obtain ⟨pe, _, he⟩ := hm
  cases hl : pe.labelText with
  | none => rw [hl] at he; simp at he
  | some lbl =>
    rw [hl] at he
    simp only [Option.some.injEq] at he
    subst he
    rfl

theorem hasSubstr_ne_nil {pat l : List Char} (hp : pat ≠ []) (h : hasSubstr pat l = true) :
    l ≠ [] := by
  intro hl
  subst hl
  cases pat with
  | nil => exact hp rfl
  | cons a as => simp [hasSubstr, List.isPrefixOf] at h

theorem extractCard_some_facts {p i : Nat} {c : Card} {s : Story}
    (h : extractCard p i c = some s) :
    s.page = p ∧ s.positionOnPage = i + 1 ∧ ExtractedInv s := by
  unfold extractCard at h
  cases ht : c.titleText with
  | none => rw [ht] at h; simp at h
  | some t =>
    cases hl : c.anchorHrefs.find? (fun href => hasSubstr "/customers/story/".toList href.toList) with
    | none => rw [ht, hl] at h; simp at h
    | some href =>
      rw [ht, hl] at h
      simp only [Option.some.injEq] at h
      subst h
      refine ⟨rfl, rfl, rfl, rfl, rfl, extractProducts_iconLocal, ?_⟩
      have hf := List.find?_some hl
      have hne := hasSubstr_ne_nil (by decide) hf
      intro he
      apply hne
      have he' : href = "" := he
      rw [he']
      rfl

theorem extractStoriesAux_facts (p : Nat) :
    ∀ (cards : List Card) (i : Nat),
      (∀ s ∈ extractStoriesAux p i cards,
        s.page = p ∧ i < s.positionOnPage ∧ ExtractedInv s) ∧
      (extractStoriesAux p i cards).Pairwise
        (fun a b => a.positionOnPage < b.positionOnPage) := by
  intro cards
  induction cards with
  | nil =>
    intro i
    constructor
    · intro s hs; simp [extractStoriesAux] at hs
    · simp [extractStoriesAux]
  | cons card rest ih =>
    intro i
    simp only [extractStoriesAux]
    cases he : extractCard p i card with
    | none =>
      refine ⟨fun s hs => ?_, (ih (i + 1)).2⟩
      obtain ⟨h1, h2, h3⟩ := (ih (i + 1)).1 s hs
      exact ⟨h1, by omega, h3⟩
    | some s0 =>
      obtain ⟨hp, hpos, hinv⟩ := extractCard_some_facts he
      constructor
      · intro s hs
        rcases List.mem_cons.mp hs with rfl | hs
        · exact ⟨hp, by omega, hinv⟩
        · obtain ⟨h1, h2, h3⟩ := (ih (i + 1)).1 s hs
          exact ⟨h1, by omega, h3⟩
      · refine List.Pairwise.cons ?_ (ih (i + 1)).2
        intro b hb
        have hb' := (ih (i + 1)).1 b hb
        omega

theorem extractStories_facts (p : Nat) (cards : List Card) :
    (∀ s ∈ extractStories p cards, s.page = p ∧ ExtractedInv s) ∧
    (extractStories p cards).Pairwise
      (fun a b => a.positionOnPage < b.positionOnPage) := by
  have h := extractStoriesAux_facts p cards 0
  exact ⟨fun s hs => ⟨(h.1 s hs).1, (h.1 s hs).2.2⟩, h.2⟩

/-! ## Page-loop lemmas -/

theorem loopAux_inv (site : SiteEnv) :
    ∀ (fuel cp : Nat) (acc : List Story),
      (∀ s ∈ acc, s.page < cp) →
      acc.Pairwise storyBefore →
      (∀ s ∈ acc, ExtractedInv s) →
      ((loopAux site fuel cp acc).2.Pairwise storyBefore ∧
       ∀ s ∈ (loopAux site fuel cp acc).2, ExtractedInv s) := by
  intro fuel
  induction fuel with
  | zero =>
    intro cp acc h1 h2 h3
    simpa [loopAux] using ⟨h2, h3⟩
  | succ fuel ih =>
    intro cp acc h1 h2 h3
    simp only [loopAux]
    by_cases hcp : cp ≤ 5
    · rw [if_pos hcp]
      by_cases hempty : (site cp).cards.isEmpty
      · rw [if_pos hempty]
        exact ⟨h2, h3⟩
      · rw [if_neg hempty]
        have hx := extractStories_facts cp (site cp).cards
        have hA1 : ∀ s ∈ acc ++ extractStories cp (site cp).cards, s.page < cp + 1 := by
          intro s hs
          rcases List.mem_append.mp hs with hs | hs
          · have := h1 s hs; omega
          · have := (hx.1 s hs).1; omega
        have hA2 : (acc ++ extractStories cp (site cp).cards).Pairwise storyBefore := by
          rw [List.pairwise_append]
          refine ⟨h2, ?_, ?_⟩
          · refine hx.2.imp_of_mem ?_
            intro a b ha hb hR
            exact Or.inr ⟨(hx.1 a ha).1.trans (hx.1 b hb).1.symm, hR⟩
          · intro a ha b hb
            exact Or.inl (((hx.1 b hb).1.symm ▸ h1 a ha))
        have hA3 : ∀ s ∈ acc ++ extractStories cp (site cp).cards, ExtractedInv s := by
          intro s hs
          rcases List.mem_append.mp hs with hs | hs
          · exact h3 s hs
          · exact (hx.1 s hs).2
        by_cases hnext : decideHasNextPage (paginationInfo (site cp).state) cp
        · rw [if_pos hnext]
          exact ih (cp + 1) _ hA1 hA2 hA3
        · rw [if_neg hnext]
          exact ⟨hA2, hA3⟩
    · rw [if_neg hcp]
      exact ⟨h2, h3⟩

theorem loopAux_visited (site : SiteEnv) :
    ∀ (fuel cp : Nat) (acc : List Story), cp + fuel = 7 → cp ≤ 6 →
      ((loopAux site fuel cp acc).1 = cp + visitedAux site fuel cp - 1 ∧
        1 ≤ visitedAux site fuel cp) ∨
      ((loopAux site fuel cp acc).1 = cp + visitedAux site fuel cp ∧
        (loopAux site fuel cp acc).1 = 6) := by
  intro fuel
  induction fuel with
  | zero => intro cp acc h7 h6; omega
  | succ fuel ih =>
    intro cp acc h7 h6
    simp only [loopAux, visitedAux]
    by_cases hcp : cp ≤ 5
    · rw [if_pos hcp, if_pos hcp]
      by_cases hempty : (site cp).cards.isEmpty
      · rw [if_pos hempty, if_pos hempty]
        left
        exact ⟨by omega, by omega⟩
      · rw [if_neg hempty, if_neg hempty]
        by_cases hnext : decideHasNextPage (paginationInfo (site cp).state) cp
        · rw [if_pos hnext, if_pos hnext]
          rcases ih (cp + 1) (acc ++ extractStories cp (site cp).cards)
              (by omega) (by omega) with ⟨ha, hb⟩ | ⟨ha, hb⟩
          · left; exact ⟨by omega, by omega⟩
          · right; exact ⟨by omega, hb⟩
        · rw [if_neg hnext, if_neg hnext]
          left
          exact ⟨by omega, by omega⟩
    · rw [if_neg hcp, if_neg hcp]
      right
      exact ⟨by omega, by omega⟩

/-! ## Asset-fetcher lemmas -/

theorem downloadImage_rejected_cases (net : Net) :
    ∀ (fuel : Nat) (url path : String) (e : DLError),
      (downloadImage net fuel url path).1 = .rejected e →
      (∃ code, e = .badStatus code ∧ code ≠ 200 ∧ code ≠ 301 ∧ code ≠ 302) ∨
      (∃ m, e = .ioError m) ∨ (∃ m, e = .netError m) ∨ e = .timeout := by
  intro fuel
  induction fuel with
  | zero =>
    intro url path e h
    unfold downloadImage at h
    split at h
    · simp at h
    · rcases hnet : net url with ⟨code, loc, w⟩ | m | _ <;> rw [hnet] at h <;>
          dsimp only at h
      · by_cases h200 : code = 200
        · rw [if_pos h200] at h
          cases w with
          | finish => simp at h
          | fsError m => right; left; exact ⟨m, by simpa using h.symm⟩
          | stalled => right; right; right; simpa using h.symm
        · rw [if_neg h200] at h
          by_cases hred : (decide (code = 301) || decide (code = 302)) = true
          · rw [if_pos hred] at h
            simp at h
          · rw [if_neg hred] at h
            simp only [Bool.or_eq_true, decide_eq_true_eq, not_or] at hred
            left
            exact ⟨code, by simpa using h.symm, h200, hred.1, hred.2⟩
      · right; right; left; exact ⟨m, by simpa using h.symm⟩
      · right; right; right; simpa using h.symm
  | succ fuel ih =>
    intro url path e h
    unfold downloadImage at h
    split at h
    · simp at h
    · rcases hnet : net url with ⟨code, loc, w⟩ | m | _ <;> rw [hnet] at h <;>
          dsimp only at h
      · by_cases h200 : code = 200
        · rw [if_pos h200] at h
          cases w with
          | finish => simp at h
          | fsError m => right; left; exact ⟨m, by simpa using h.symm⟩
          | stalled => right; right; right; simpa using h.symm
        · rw [if_neg h200] at h
          by_cases hred : (decide (code = 301) || decide (code = 302)) = true
          · rw [if_pos hred] at h
            exact ih _ _ _ h
          · rw [if_neg hred] at h
            simp only [Bool.or_eq_true, decide_eq_true_eq, not_or] at hred
            left
            exact ⟨code, by simpa using h.symm, h200, hred.1, hred.2⟩
      · right; right; left; exact ⟨m, by simpa using h.symm⟩
      · right; right; right; simpa using h.symm

theorem downloadImage_ioError_absent (net : Net) :
    ∀ (fuel : Nat) (url path : String) (m : String),
      (downloadImage net fuel url path).1 = .rejected (.ioError m) →
      (downloadImage net fuel url path).2 = .absent := by
  intro fuel
  induction fuel with
  | zero =>
    intro url path m h
    unfold downloadImage at h ⊢
    split at h <;> rename_i hc
    · rw [if_pos hc]
    · rw [if_neg hc]
      rcases hnet : net url with ⟨code, loc, w⟩ | m' | _ <;> rw [hnet] at h <;>
          dsimp only at h ⊢
      · by_cases h200 : code = 200
        · rw [if_pos h200] at h ⊢
          cases w with
          | finish => simp at h
          | fsError m' => rfl
          | stalled => simp at h
        · rw [if_neg h200] at h ⊢
          by_cases hred : (decide (code = 301) || decide (code = 302)) = true
          · rw [if_pos hred] at h
            simp at h
          · rw [if_neg hred]
  | succ fuel ih =>
    intro url path m h
    unfold downloadImage at h ⊢
    split at h <;> rename_i hc
    · rw [if_pos hc]
    · rw [if_neg hc]
      rcases hnet : net url with ⟨code, loc, w⟩ | m' | _ <;> rw [hnet] at h <;>
          dsimp only at h ⊢
      · by_cases h200 : code = 200
        · rw [if_pos h200] at h ⊢
          cases w with
          | finish => simp at h
          | fsError m' => rfl
          | stalled => simp at h
        · rw [if_neg h200] at h ⊢
          by_cases hred : (decide (code = 301) || decide (code = 302)) = true
          · rw [if_pos hred] at h ⊢
            exact ih _ _ _ h
          · rw [if_neg hred]

theorem downloadImage_200_finish (net : Net) (fuel : Nat) (url path : String)
    (loc : Option String)
    (hne : url ≠ "") (hdata : "data:".toList.isPrefixOf url.toList = false)
    (hr : net url = .response 200 loc .finish) :
    downloadImage net fuel url path = (.resolved (some path), .written) := by
  have hcond : ¬ ((decide (url = "") || "data:".toList.isPrefixOf url.toList) = true) := by
    rw [decide_eq_false hne, hdata]
    simp
  cases fuel <;>
  · unfold downloadImage
    rw [if_neg hcond]
    rw [hr]
    rfl

theorem downloadImage_redirect (net : Net) (fuel : Nat) (url path : String)
    (loc : Option String) (code : Nat) (w : WriteOutcome)
    (hne : url ≠ "") (hdata : "data:".toList.isPrefixOf url.toList = false)
    (hr : net url = .response code loc w) (hcode : code = 301 ∨ code = 302) :
    downloadImage net (fuel + 1) url path = downloadImage net fuel (loc.getD "") path := by
  have hcond : ¬ ((decide (url = "") || "data:".toList.isPrefixOf url.toList) = true) := by
    rw [decide_eq_false hne, hdata]
    simp
  conv_lhs => unfold downloadImage
  rw [if_neg hcond]
  rw [hr]
  dsimp only
  have h200 : ¬ code = 200 := by rcases hcode with rfl | rfl <;> omega
  rw [if_neg h200]
  rw [if_pos (by rcases hcode with rfl | rfl <;> simp)]

/-! ## Download-phase lemmas -/

theorem downloadLogoStep_rest {net : Net} {fuel : Nat} {s s' : Story}
    (h : downloadLogoStep net fuel s = some s') :
    s'.page = s.page ∧ s'.positionOnPage = s.positionOnPage ∧ s'.globalId = s.globalId ∧
    s'.title = s.title ∧ s'.industry = s.industry ∧ s'.storyUrl = s.storyUrl ∧
    s'.company.logo = s.company.logo ∧ s'.media = s.media ∧
    s'.microsoftProducts = s.microsoftProducts := by
  unfold downloadLogoStep at h
  split at h
  · simp only [Option.some.injEq] at h
    subst h
    exact ⟨rfl, rfl, rfl, rfl, rfl, rfl, rfl, rfl, rfl⟩
  · split at h
    · simp only [Option.some.injEq] at h
      subst h
      exact ⟨rfl, rfl, rfl, rfl, rfl, rfl, rfl, rfl, rfl⟩
    · simp only [Option.some.injEq] at h
      subst h
      exact ⟨rfl, rfl, rfl, rfl, rfl, rfl, rfl, rfl, rfl⟩
    · simp at h

theorem downloadLogoStep_logoLocal {net : Net} {fuel : Nat} {s s' : Story}
    (h : downloadLogoStep net fuel s = some s') (h0 : s.company.logoLocal = none) :
    s'.company.logoLocal =
      if s.company.logo ≠ "" ∧
         dlResolves (downloadImage net fuel s.company.logo ("media/" ++ logoFilename s)).1 = true
      then some ("media/" ++ logoFilename s) else none := by
  unfold downloadLogoStep at h
  split at h <;> rename_i hlogo
  · simp only [Option.some.injEq] at h
    subst h
    rw [if_neg (fun hand => hand.1 hlogo)]
    exact h0
  · split at h <;> rename_i hdl
    · simp only [Option.some.injEq] at h
      subst h
      rw [if_pos ⟨hlogo, by rw [hdl]; rfl⟩]
    · simp only [Option.some.injEq] at h
      subst h
      have hcond : ¬ (s.company.logo ≠ "" ∧
          dlResolves (downloadImage net fuel s.company.logo ("media/" ++ logoFilename s)).1 = true) := by
        rintro ⟨-, hres⟩
        rw [hdl] at hres
        simp [dlResolves] at hres
      rw [if_neg hcond]
      exact h0
    · simp at h

theorem downloadHeaderStep_rest {net : Net} {fuel : Nat} {s s' : Story}
    (h : downloadHeaderStep net fuel s = some s') :
    s'.page = s.page ∧ s'.positionOnPage = s.positionOnPage ∧ s'.globalId = s.globalId ∧
    s'.title = s.title ∧ s'.industry = s.industry ∧ s'.storyUrl = s.storyUrl ∧
    s'.company = s.company ∧ s'.media.headerImage = s.media.headerImage ∧
    s'.microsoftProducts = s.microsoftProducts := by
  unfold downloadHeaderStep at h
  split at h
  · simp only [Option.some.injEq] at h
    subst h
    exact ⟨rfl, rfl, rfl, rfl, rfl, rfl, rfl, rfl, rfl⟩
  · split at h
    · simp only [Option.some.injEq] at h
      subst h
      exact ⟨rfl, rfl, rfl, rfl, rfl, rfl, rfl, rfl, rfl⟩
    · simp only [Option.some.injEq] at h
      subst h
      exact ⟨rfl, rfl, rfl, rfl, rfl, rfl, rfl, rfl, rfl⟩
    · simp at h

theorem downloadHeaderStep_headerLocal {net : Net} {fuel : Nat} {s s' : Story}
    (h : downloadHeaderStep net fuel s = some s') (h0 : s.media.headerImageLocal = none) :
    s'.media.headerImageLocal =
      if s.media.headerImage ≠ "" ∧
         dlResolves (downloadImage net fuel s.media.headerImage ("media/" ++ headerFilename s)).1 = true
      then some ("media/" ++ headerFilename s) else none := by
  unfold downloadHeaderStep at h
  split at h <;> rename_i hhdr
  · simp only [Option.some.injEq] at h
    subst h
    rw [if_neg (fun hand => hand.1 hhdr)]
    exact h0
  · split at h <;> rename_i hdl
    · simp only [Option.some.injEq] at h
      subst h
      rw [if_pos ⟨hhdr, by rw [hdl]; rfl⟩]
    · simp only [Option.some.injEq] at h
      subst h
      have hcond : ¬ (s.media.headerImage ≠ "" ∧
          dlResolves (downloadImage net fuel s.media.headerImage ("media/" ++ headerFilename s)).1 = true) := by
        rintro ⟨-, hres⟩
        rw [hdl] at hres
        simp [dlResolves] at hres
      rw [if_neg hcond]
      exact h0
    · simp at h

theorem downloadIconStep_rest {net : Net} {fuel : Nat} {gid : String} {p p' : Product}
    (h : downloadIconStep net fuel gid p = some p') :
    p'.name = p.name ∧ p'.icon = p.icon ∧ p'.iconAlt = p.iconAlt := by
  unfold downloadIconStep at h
  split at h
  · simp only [Option.some.injEq] at h
    subst h
    exact ⟨rfl, rfl, rfl⟩
  · split at h
    · simp only [Option.some.injEq] at h
      subst h
      exact ⟨rfl, rfl, rfl⟩
    · simp only [Option.some.injEq] at h
      subst h
      exact ⟨rfl, rfl, rfl⟩
    · simp at h

theorem downloadIconStep_iconLocal {net : Net} {fuel : Nat} {gid : String} {p p' : Product}
    (h : downloadIconStep net fuel gid p = some p') (h0 : p.iconLocal = none) :
    p'.iconLocal =
      if p.icon ≠ "" ∧
         dlResolves (downloadImage net fuel p.icon ("media/" ++ iconFilename gid p)).1 = true
      then some ("media/" ++ iconFilename gid p) else none := by
  unfold downloadIconStep at h
  split at h <;> rename_i hicon
  · simp only [Option.some.injEq] at h
    subst h
    rw [if_neg (fun hand => hand.1 hicon)]
    exact h0
  · split at h <;> rename_i hdl
    · simp only [Option.some.injEq] at h
      subst h
      rw [if_pos ⟨hicon, by rw [hdl]; rfl⟩]
    · simp only [Option.some.injEq] at h
      subst h
      have hcond : ¬ (p.icon ≠ "" ∧
          dlResolves (downloadImage net fuel p.icon ("media/" ++ iconFilename gid p)).1 = true) := by
        rintro ⟨-, hres⟩
        rw [hdl] at hres
        simp [dlResolves] at hres
      rw [if_neg hcond]
      exact h0
    · simp at h

theorem downloadIconsAux_forall₂ {net : Net} {fuel : Nat} {gid : String} :
    ∀ {ps ps' : List Product}, downloadIconsAux net fuel gid ps = some ps' →
      List.Forall₂ (fun p p' => downloadIconStep net fuel gid p = some p') ps ps' := by
  intro ps
  induction ps with
  | nil =>
    intro ps' h
    simp only [downloadIconsAux, Option.some.injEq] at h
    subst h
    exact List.Forall₂.nil
  | cons p rest ih =>
    intro ps' h
    simp only [downloadIconsAux] at h
    cases h1 : downloadIconStep net fuel gid p with
    | none => rw [h1] at h; simp at h
    | some p' =>
      rw [h1] at h
      dsimp only at h
      cases h2 : downloadIconsAux net fuel gid rest with
      | none => rw [h2] at h; simp at h
      | some rest' =>
        rw [h2] at h
        dsimp only at h
        simp only [Option.some.injEq] at h
        subst h
        exact List.Forall₂.cons h1 (ih h2)

theorem forall₂_mem_right {α β : Type} {R : α → β → Prop} :
    ∀ {l : List α} {l' : List β}, List.Forall₂ R l l' → ∀ b ∈ l', ∃ a ∈ l, R a b := by
  intro l l' hf
  induction hf with
  | nil => intro b hb; simp at hb
  | cons hR htl ih =>
    intro b hb
    rcases List.mem_cons.mp hb with rfl | hb
    · exact ⟨_, List.mem_cons_self _ _, hR⟩
    · obtain ⟨a, ha, hr⟩ := ih b hb
      exact ⟨a, List.mem_cons_of_mem _ ha, hr⟩

theorem forall₂_map_eq {α β γ : Type} {R : α → β → Prop} {f : α → γ} {g : β → γ}
    (hfg : ∀ a b, R a b → f a = g b) :
    ∀ {l : List α} {l' : List β}, List.Forall₂ R l l' → l.map f = l'.map g := by
  intro l l' hf
  induction hf with
  | nil => rfl
  | cons hR htl ih => simp [hfg _ _ hR, ih]

theorem processStory_rest {net : Net} {fuel : Nat} {s s' : Story}
    (h : processStory net fuel s = some s') :
    s'.page = s.page ∧ s'.positionOnPage = s.positionOnPage ∧ s'.globalId = s.globalId ∧
    s'.title = s.title ∧ s'.storyUrl = s.storyUrl := by
  unfold processStory at h
  cases h1 : downloadLogoStep net fuel s with
  | none => rw [h1] at h; simp at h
  | some s1 =>
    rw [h1] at h
    dsimp only at h
    cases h2 : downloadHeaderStep net fuel s1 with
    | none => rw [h2] at h; simp at h
    | some s2 =>
      rw [h2] at h
      dsimp only at h
      cases h3 : downloadIconsAux net fuel s2.globalId s2.microsoftProducts with
      | none => rw [h3] at h; simp at h
      | some ps =>
        rw [h3] at h
        dsimp only at h
        simp only [Option.some.injEq] at h
        subst h
        obtain ⟨l1, l2, l3, l4, -, l6, -, -, -⟩ := downloadLogoStep_rest h1
        obtain ⟨m1, m2, m3, m4, -, m6, -, -, -⟩ := downloadHeaderStep_rest h2
        exact ⟨m1.trans l1, m2.trans l2, m3.trans l3, m4.trans l4, m6.trans l6⟩

theorem processStory_char {net : Net} {fuel : Nat} {s s' : Story}
    (h : processStory net fuel s = some s')
    (hl : s.company.logoLocal = none) (hh : s.media.headerImageLocal = none) :
    s'.company.logoLocal =
      (if s.company.logo ≠ "" ∧
          dlResolves (downloadImage net fuel s.company.logo ("media/" ++ logoFilename s)).1 = true
        then some ("media/" ++ logoFilename s) else none) ∧
    s'.media.headerImageLocal =
      (if s.media.headerImage ≠ "" ∧
          dlResolves (downloadImage net fuel s.media.headerImage ("media/" ++ headerFilename s)).1 = true
        then some ("media/" ++ headerFilename s) else none) ∧
    List.Forall₂ (fun p p' =>
        p.iconLocal = none →
        p'.iconLocal =
          (if p.icon ≠ "" ∧
              dlResolves (downloadImage net fuel p.icon ("media/" ++ iconFilename s.globalId p)).1 = true
            then some ("media/" ++ iconFilename s.globalId p) else none))
      s.microsoftProducts s'.microsoftProducts := by
  unfold processStory at h
  cases h1 : downloadLogoStep net fuel s with
  | none => rw [h1] at h; simp at h
  | some s1 =>
    rw [h1] at h
    dsimp only at h
    cases h2 : downloadHeaderStep net fuel s1 with
    | none => rw [h2] at h; simp at h
    | some s2 =>
      rw [h2] at h
      dsimp only at h
      cases h3 : downloadIconsAux net fuel s2.globalId s2.microsoftProducts with
      | none => rw [h3] at h; simp at h
      | some ps =>
        rw [h3] at h
        dsimp only at h
        simp only [Option.some.injEq] at h
        subst h
        obtain ⟨-, -, lgid, -, -, -, llogo, lmedia, lprod⟩ := downloadLogoStep_rest h1
        obtain ⟨-, -, mgid, -, -, -, mcomp, mhdr, mprod⟩ := downloadHeaderStep_rest h2
        have hlogoFn : logoFilename s1 = logoFilename s := by
          unfold logoFilename
          rw [lgid, llogo]
        have hheaderFn : headerFilename s1 = headerFilename s := by
          unfold headerFilename
          rw [lgid, lmedia]
        refine ⟨?_, ?_, ?_⟩
        · have hchar := downloadLogoStep_logoLocal h1 hl
          have hcomp : ({ s2 with microsoftProducts := ps } : Story).company = s1.company := mcomp
          rw [hcomp]
          exact hchar
        · have h0' : s1.media.headerImageLocal = none := by rw [lmedia]; exact hh
          have hchar := downloadHeaderStep_headerLocal h2 h0'
          have hmm : ({ s2 with microsoftProducts := ps } : Story).media = s2.media := rfl
          rw [hmm, hchar, hheaderFn]
          rw [lmedia]
        · have hf := downloadIconsAux_forall₂ h3
          have hps : ({ s2 with microsoftProducts := ps } : Story).microsoftProducts = ps := rfl
          rw [hps]
          have hprods : s2.microsoftProducts = s.microsoftProducts := mprod.trans lprod
          have hgid2 : s2.globalId = s.globalId := mgid.trans lgid
          rw [hprods, hgid2] at hf
          refine hf.imp ?_
          intro p p' hstep h0
          exact downloadIconStep_iconLocal hstep h0

theorem processAllStories_forall₂ {net : Net} {fuel : Nat} :
    ∀ {l l' : List Story}, processAllStories net fuel l = some l' →
      List.Forall₂ (fun s s' => processStory net fuel s = some s') l l' := by
  intro l
  induction l with
  | nil =>
    intro l' h
    simp only [processAllStories, Option.some.injEq] at h
    subst h
    exact List.Forall₂.nil
  | cons s rest ih =>
    intro l' h
    simp only [processAllStories] at h
    cases h1 : processStory net fuel s with
    | none => rw [h1] at h; simp at h
    | some s' =>
      rw [h1] at h
      dsimp only at h
      cases h2 : processAllStories net fuel rest with
      | none => rw [h2] at h; simp at h
      | some rest' =>
        rw [h2] at h
        dsimp only at h
        simp only [Option.some.injEq] at h
        subst h
        exact List.Forall₂.cons h1 (ih h2)

/-! ## Pipeline and metadata lemmas -/

theorem extractionLoop_facts (site : SiteEnv) :
    (extractionLoop site).2.Pairwise storyBefore ∧
    ∀ s ∈ (extractionLoop site).2, ExtractedInv s :=
  loopAux_inv site 6 1 [] (by intro s hs; simp at hs) List.Pairwise.nil
    (by intro s hs; simp at hs)

theorem runPipeline_some {net : Net} {fuel : Nat} {site : SiteEnv}
    {md : RunMetadata} {out : List Story}
    (h : runPipeline net fuel site = some (md, out)) :
    md.totalPages = (extractionLoop site).1 ∧ md.totalStories = out.length ∧
    md.storiesPerPage = storiesPerPage out ∧
    processAllStories net fuel (extractionLoop site).2 = some out := by
  unfold runPipeline at h
  dsimp only at h
  split at h
  · simp at h
  · cases hp : processAllStories net fuel (extractionLoop site).2 with
    | none => rw [hp] at h; simp at h
    | some stories =>
      rw [hp] at h
      dsimp only at h
      simp only [Option.some.injEq, Prod.mk.injEq] at h
      obtain ⟨hmd, hout⟩ := h
      subst hout
      rw [← hmd]
      exact ⟨rfl, rfl, rfl, rfl⟩

theorem sumVals_bumpPage : ∀ (acc : List (Nat × Nat)) (p : Nat),
    sumVals (bumpPage acc p) = sumVals acc + 1 := by
  intro acc
  induction acc with
  | nil => intro p; simp [bumpPage, sumVals]
  | cons kv rest ih =>
    intro p
    obtain ⟨k, v⟩ := kv
    simp only [bumpPage]
    by_cases hk : k = p
    · rw [if_pos hk]
      simp only [sumVals, List.map, List.sum_cons]
      omega
    · rw [if_neg hk]
      simp only [sumVals, List.map, List.sum_cons] at *
      rw [ih p]
      omega

theorem sumVals_foldl_bump : ∀ (l : List Story) (acc : List (Nat × Nat)),
    sumVals (l.foldl (fun a s => bumpPage a s.page) acc) = sumVals acc + l.length := by
  intro l
  induction l with
  | nil => intro acc; simp
  | cons s rest ih =>
    intro acc
    simp only [List.foldl, List.length_cons]
    rw [ih, sumVals_bumpPage]
    omega

theorem sumVals_storiesPerPage (l : List Story) :
    sumVals (storiesPerPage l) = l.length := by
  unfold storiesPerPage
  rw [sumVals_foldl_bump]
  simp [sumVals]

theorem forall₂_imp_of_mem_left {α β : Type} {R S : α → β → Prop} :
    ∀ {l : List α} {l' : List β}, List.Forall₂ R l l' →
      (∀ a b, a ∈ l → R a b → S a b) → List.Forall₂ S l l' := by
  intro l l' hf
  induction hf with
  | nil => intro _; exact List.Forall₂.nil
  | cons hR htl ih =>
    intro hmem
    refine List.Forall₂.cons (hmem _ _ (List.mem_cons_self _ _) hR) ?_
    exact ih fun a b ha hab => hmem a b (List.mem_cons_of_mem _ ha) hab

/-! ## The claims -/

/-- **C9**: asset filename derivation is a pure deterministic function of
`globalId`, role tag and extension: `generateImageFilename` returns
exactly `{globalId}_{role}.{ext}` (ignoring the unused company-name
argument, and with no randomness or timestamp inputs), and for product
icons the role tag is `product_{sanitized-name}`, where the sanitization
(replace every non-alphanumeric character by `_`, then lowercase) agrees
with the spec's wording (lowercase, then replace). -/
theorem claim_C9_filename_derivation :
    (∀ companyName globalId type extension : String,
        generateImageFilename companyName globalId type extension =
          globalId ++ "_" ++ type ++ "." ++ extension) ∧
    (∀ name : String, productSafeName name = sanitizeSpecOrder name) ∧
    (∀ (globalId : String) (product : Product),
        iconFilename globalId product =
          globalId ++ "_" ++ ("product_" ++ productSafeName product.name) ++ "." ++
            getImageExtension product.icon "") := by
  have hgen : ∀ companyName globalId type extension : String,
      generateImageFilename companyName globalId type extension =
        globalId ++ "_" ++ type ++ "." ++ extension := by
    intro a b c d
    simp only [generateImageFilename, toString]
    simp [String.append_assoc, String.append_empty, String.empty_append]
  refine ⟨hgen, ?_, ?_⟩
  · intro n
    simp only [productSafeName, sanitizeSpecOrder, List.map_map]
    have hc : Char.toLower ∘ sanitizeChar = sanitizeChar ∘ Char.toLower :=
      funext sanitizeChar_toLower_comm
    rw [hc]
  · intro globalId product
    unfold iconFilename
    exact hgen _ _ _ _

/-- **C6**: the Pagination Oracle evaluates its signals in priority order
with short-circuiting: (a) hidden pagination container together with
shown = total (and the implicit total > 0 inside `allResultsOnOnePage`)
decides stop; (b) when signal 1 is inconclusive, a parsed announcement
`Page X of Y` decides continue exactly when `X < Y`, regardless of the
next-button state; (c) when neither signal 1 nor the announcement is
conclusive and the next control is disabled, the decision is stop. -/
theorem claim_C6_pagination_oracle (st : PageState) (x y : Nat) :
    ((isPaginationHidden st && allResultsOnOnePage st) = true →
      (paginationInfo st).hasNext = false ∧ (paginationInfo st).singlePage = true) ∧
    ((isPaginationHidden st && allResultsOnOnePage st) = false →
      findPageOf (st.announcementText.getD "").toList = some (x, y) →
      ((paginationInfo st).hasNext = true ↔ x < y)) ∧
    ((isPaginationHidden st && allResultsOnOnePage st) = false →
      findPageOf (st.announcementText.getD "").toList = none →
      nextButtonDisabled st = true →
      (paginationInfo st).hasNext = false) := by
  refine ⟨?_, ?_, ?_⟩
  · intro h1
    unfold paginationInfo
    rw [if_pos h1]
    exact ⟨rfl, rfl⟩
  · intro h1 h2
    unfold paginationInfo
    rw [if_neg (by simp [h1])]
    rw [h2]
    simp
  · intro h1 h2 h3
    unfold paginationInfo
    rw [if_neg (by simp [h1])]
    rw [h2]
    simp [h3]

/-- Witness for C6 at the spec's four example states: hidden container
with `12 of 12` → stop; `Page 2 of 5` → continue; `Page 5 of 5` → stop;
no announcement and disabled next button → stop. -/
theorem claim_C6_pagination_oracle_witness :
    (paginationInfo hiddenState).hasNext = false ∧
    (paginationInfo page2of5State).hasNext = true ∧
    (paginationInfo page5of5State).hasNext = false ∧
    (paginationInfo stopState).hasNext = false := by
  refine ⟨?_, ?_, ?_, ?_⟩
  · exact ((claim_C6_pagination_oracle hiddenState 0 0).1 (by decide)).1
  · exact ((claim_C6_pagination_oracle page2of5State 2 5).2.1 (by decide) (by decide)).mpr
      (by decide)
  · have h := (claim_C6_pagination_oracle page5of5State 5 5).2.1 (by decide) (by decide)
    cases hx : (paginationInfo page5of5State).hasNext
    · rfl
    · exact absurd (h.mp hx) (by decide)
  · exact (claim_C6_pagination_oracle stopState 0 0).2.2 (by decide) (by decide) (by decide)

/-- **C10**: when neither the hidden-pagination signal nor an
announcement parse is conclusive and the `#right-arrow` element is
entirely absent, the fallback reports `hasNext = true` and the loop's
continuation decision is continue, whatever the current page counter
is. -/
theorem claim_C10_fallback_absent_next (st : PageState) (currentPage : Nat)
    (h1 : (isPaginationHidden st && allResultsOnOnePage st) = false)
    (h2 : findPageOf (st.announcementText.getD "").toList = none)
    (h3 : st.nextButtonPresent = false) :
    (paginationInfo st).hasNext = true ∧
    decideHasNextPage (paginationInfo st) currentPage = true := by
  have hnb : nextButtonDisabled st = false := by simp [nextButtonDisabled, h3]
  unfold paginationInfo
  rw [if_neg (by simp [h1]), h2]
  refine ⟨by simp [hnb], ?_⟩
  unfold decideHasNextPage
  simp [hnb]

/-- Witness for C10: a page state with no pagination signals at all. -/
theorem claim_C10_fallback_absent_next_witness :
    (paginationInfo contState).hasNext = true ∧
    decideHasNextPage (paginationInfo contState) 3 = true :=
  claim_C10_fallback_absent_next contState 3 (by decide) (by decide) (by decide)

/-- Counterexample to **C3** as stated: a card whose title element
exists but holds only whitespace passes the `titleElement && storyLink`
guard and is emitted with an empty `title`, so "every record's title is
a non-empty string" is false on the code. -/
theorem claim_C3_counterexample :
    (extractStories 1 [wsCard]).map (fun s => s.title) = [""] := by
  rfl

/-- **C3 (amended)**: every emitted record has a non-empty `storyUrl`
(the canonical-link selector guarantees the href contains
`/customers/story/`); a candidate lacking a title element or a story
link is dropped; but the `title` itself is only the trimmed text of the
title element and may be the empty string. -/
theorem claim_C3_storyUrl_nonempty (pageNum : Nat) (cards : List Card) :
    ∀ s ∈ extractStories pageNum cards, s.storyUrl ≠ "" := by
  intro s hs
  exact ((extractStories_facts pageNum cards).1 s hs).2.2.2.2.2

/-- Witness for the amended C3 on a concrete well-formed card. -/
theorem claim_C3_storyUrl_nonempty_witness :
    demoStory ∈ extractStories 1 [demoCard] ∧ demoStory.storyUrl ≠ "" :=
  ⟨by decide, claim_C3_storyUrl_nonempty 1 [demoCard] demoStory (by decide)⟩

/-- Counterexample to **C2** as stated: on a site whose five pages all
say continue, the loop stops only at the hard page cap; five pages are
visited but the `currentPage` counter has already been incremented to 6,
and `metadata.totalPages` reports 6, not 5. -/
theorem claim_C2_counterexample :
    ∃ md out, runPipeline netOkFinish 1 contSite = some (md, out) ∧
      md.totalPages = 6 ∧ pagesVisited contSite = 5 ∧
      md.totalPages ≠ pagesVisited contSite := by
  exact ⟨_, _, rfl, rfl, rfl, by decide⟩

/-- **C2 (amended)**: `metadata.totalPages` is the final value of the
page counter.  It equals the number of pages actually visited whenever
the loop is stopped by the oracle's decision or by a zero-card page; when
the loop terminates because the hard page cap is reached after a
continue decision, it equals pages-visited + 1 (it reports 6 though 5
pages were visited). -/
theorem claim_C2_totalPages {net : Net} {fuel : Nat} {site : SiteEnv}
    {md : RunMetadata} {out : List Story}
    (h : runPipeline net fuel site = some (md, out)) :
    md.totalPages = pagesVisited site ∨
    (md.totalPages = 6 ∧ pagesVisited site = 5) := by
  obtain ⟨h1, -, -, -⟩ := runPipeline_some h
  rw [h1]
  unfold extractionLoop pagesVisited
  rcases loopAux_visited site 6 1 [] (by norm_num) (by norm_num) with ⟨ha, hb⟩ | ⟨ha, hb⟩
  · left; omega
  · right; omega

/-- Witness for the amended C2 on a one-page run. -/
theorem claim_C2_totalPages_witness :
    ∃ md out, runPipeline netOkFinish 1 oneStopSite = some (md, out) ∧
      (md.totalPages = pagesVisited oneStopSite ∨
        (md.totalPages = 6 ∧ pagesVisited oneStopSite = 5)) :=
  ⟨_, _, rfl, @claim_C2_totalPages netOkFinish 1 oneStopSite _ _ rfl⟩

/-- **C7**: within one completed run's dataset the `globalId` values are
pairwise distinct; each record's `globalId` is exactly
`p{page}_{positionOnPage}`; and no two records share the same
`(page, positionOnPage)` pair. -/
theorem claim_C7_globalId_unique {net : Net} {fuel : Nat} {site : SiteEnv}
    {md : RunMetadata} {out : List Story}
    (h : runPipeline net fuel site = some (md, out)) :
    (out.map (fun s => s.globalId)).Nodup ∧
    (∀ s ∈ out, s.globalId = mkGid s.page s.positionOnPage) ∧
    (out.map pagePos).Nodup := by
  obtain ⟨-, -, -, hproc⟩ := runPipeline_some h
  have hinv := extractionLoop_facts site
  have hf₂ := processAllStories_forall₂ hproc
  have hpp : ∀ (a b : Story), processStory net fuel a = some b → pagePos a = pagePos b := by
    intro a b hab
    obtain ⟨p1, p2, -, -, -⟩ := processStory_rest hab
    unfold pagePos
    rw [p1, p2]
  have hmapPP : (extractionLoop site).2.map pagePos = out.map pagePos :=
    forall₂_map_eq hpp hf₂
  have hpairLS : (extractionLoop site).2.Pairwise
      (fun a b => pairLt (pagePos a) (pagePos b)) :=
    hinv.1.imp fun hab => hab
  have hpairOut : out.Pairwise (fun a b => pairLt (pagePos a) (pagePos b)) := by
    have := List.pairwise_map.mpr hpairLS
    rw [hmapPP] at this
    exact List.pairwise_map.mp this
  have hgid : ∀ s' ∈ out, s'.globalId = mkGid s'.page s'.positionOnPage := by
    intro s' hs'
    obtain ⟨s, hsm, hps⟩ := forall₂_mem_right hf₂ s' hs'
    obtain ⟨p1, p2, p3, -, -⟩ := processStory_rest hps
    have hg := (hinv.2 s hsm).1
    rw [p3, hg, p1, p2]
  refine ⟨?_, hgid, ?_⟩
  · rw [List.Nodup, List.pairwise_map]
    refine hpairOut.imp_of_mem ?_
    intro a b ha hb hlt heq
    rw [hgid a ha, hgid b hb] at heq
    obtain ⟨e1, e2⟩ := mkGid_inj heq
    unfold pairLt pagePos at hlt
    rcases hlt with hlt | ⟨-, hlt⟩ <;> simp only [] at hlt <;> omega
  · rw [List.Nodup, List.pairwise_map]
    refine hpairOut.imp ?_
    intro a b hlt heq
    unfold pairLt at hlt
    rw [heq] at hlt
    rcases hlt with hlt | ⟨-, hlt⟩ <;> omega

/-- Witness for C7 on a completed one-page run. -/
theorem claim_C7_globalId_unique_witness :
    ∃ md out, runPipeline netOkFinish 1 oneStopSite = some (md, out) ∧
      (out.map (fun s => s.globalId)).Nodup ∧
      (∀ s ∈ out, s.globalId = mkGid s.page s.positionOnPage) :=
  ⟨_, _, rfl, (@claim_C7_globalId_unique netOkFinish 1 oneStopSite _ _ rfl).1,
    (@claim_C7_globalId_unique netOkFinish 1 oneStopSite _ _ rfl).2.1⟩

/-- **C8**: in every completed run's metadata the `storiesPerPage`
counts sum exactly to `totalStories`, and `totalStories` is the number
of records in the dataset. -/
theorem claim_C8_storiesPerPage_sum {net : Net} {fuel : Nat} {site : SiteEnv}
    {md : RunMetadata} {out : List Story}
    (h : runPipeline net fuel site = some (md, out)) :
    sumVals md.storiesPerPage = md.totalStories ∧ md.totalStories = out.length := by
  obtain ⟨-, h2, h3, -⟩ := runPipeline_some h
  rw [h2, h3]
  exact ⟨sumVals_storiesPerPage out, rfl⟩

/-- Witness for C8 on a completed one-page run. -/
theorem claim_C8_storiesPerPage_sum_witness :
    ∃ md out, runPipeline netOkFinish 1 oneStopSite = some (md, out) ∧
      sumVals md.storiesPerPage = md.totalStories :=
  ⟨_, _, rfl, (@claim_C8_storiesPerPage_sum netOkFinish 1 oneStopSite _ _ rfl).1⟩

/-- Counterexample to **C4** as stated: a 204 No Content response —
a 2xx status — is reported as a typed failure, because the source only
accepts the exact status 200; and a 307 redirect is not followed but
also rejected, because only 301 and 302 are treated as redirects. -/
theorem claim_C4_counterexample :
    (downloadImage net204 1 "http://img.example/a" "media/p1_1_logo.jpg").1 =
      .rejected (.badStatus 204) ∧ 200 ≤ 204 ∧ 204 < 300 ∧
    (downloadImage net307 1 "http://img.example/a" "media/p1_1_logo.jpg").1 =
      .rejected (.badStatus 307) := by
  exact ⟨rfl, by norm_num, by norm_num, rfl⟩

/-- **C4 (amended)**: every typed failure of the Asset Fetcher is either
a status failure for a status that is neither 200 nor 301/302 (including
2xx statuses other than 200), an I/O failure during the write, a
request-level network error, or a timeout; a 200 response with a clean
write always resolves with the written path; and a 301/302 response
re-issues the request to the `Location` target. -/
theorem claim_C4_fetcher_behaviour :
    (∀ (net : Net) (fuel : Nat) (url path : String) (e : DLError),
      (downloadImage net fuel url path).1 = .rejected e →
      (∃ code, e = .badStatus code ∧ code ≠ 200 ∧ code ≠ 301 ∧ code ≠ 302) ∨
      (∃ m, e = .ioError m) ∨ (∃ m, e = .netError m) ∨ e = .timeout) ∧
    (∀ (net : Net) (fuel : Nat) (url path : String) (loc : Option String),
      url ≠ "" → "data:".toList.isPrefixOf url.toList = false →
      net url = .response 200 loc .finish →
      downloadImage net fuel url path = (.resolved (some path), .written)) ∧
    (∀ (net : Net) (fuel : Nat) (url path : String) (loc : Option String)
        (code : Nat) (w : WriteOutcome),
      url ≠ "" → "data:".toList.isPrefixOf url.toList = false →
      net url = .response code loc w → code = 301 ∨ code = 302 →
      downloadImage net (fuel + 1) url path = downloadImage net fuel (loc.getD "") path) :=
  ⟨fun net => downloadImage_rejected_cases net,
   fun net fuel url path loc h1 h2 h3 => downloadImage_200_finish net fuel url path loc h1 h2 h3,
   fun net fuel url path loc code w h1 h2 h3 h4 =>
     downloadImage_redirect net fuel url path loc code w h1 h2 h3 h4⟩

/-- Witness for the amended C4: a clean 200 download succeeds; a 301 is
re-issued to its Location; a write error is classified as an I/O
failure. -/
theorem claim_C4_fetcher_behaviour_witness :
    downloadImage netOkFinish 0 "http://img.example/h.png" "media/x.png" =
      (.resolved (some "media/x.png"), .written) ∧
    downloadImage netRedirectOnce 1 "http://a.example/logo" "media/x.png" =
      downloadImage netRedirectOnce 0 "http://b.example/logo.png" "media/x.png" ∧
    ((∃ code, (DLError.ioError "EIO") = .badStatus code ∧ code ≠ 200 ∧ code ≠ 301 ∧ code ≠ 302) ∨
      (∃ m, (DLError.ioError "EIO") = .ioError m) ∨
      (∃ m, (DLError.ioError "EIO") = .netError m) ∨ (DLError.ioError "EIO") = .timeout) := by
  refine ⟨?_, ?_, ?_⟩
  · exact claim_C4_fetcher_behaviour.2.1 netOkFinish 0 _ _ none (by decide) (by decide) rfl
  · exact claim_C4_fetcher_behaviour.2.2 netRedirectOnce 0 _ _
      (some "http://b.example/logo.png") 301 .finish (by decide) (by decide) (by rfl)
      (Or.inl rfl)
  · exact claim_C4_fetcher_behaviour.1 netFsError 2 "http://img.example/a" "p"
      (.ioError "EIO") rfl

/-- Counterexample to **C5** as stated: when the 30 s timeout fires
midway through the body transfer of a 200 response, the timeout handler
destroys the request and rejects but never unlinks the destination file,
so the typed failure is reported while a partial artifact stays on
disk. -/
theorem claim_C5_counterexample :
    (downloadImage netStalled 1 "http://img.example/h.png" "media/p1_2_header.png").1 =
      .rejected .timeout ∧
    (downloadImage netStalled 1 "http://img.example/h.png" "media/p1_2_header.png").2 =
      .partialLeft :=
  ⟨rfl, rfl⟩

/-- **C5 (amended)**: on a write-stream I/O failure the partially written
destination file is removed (`fs.unlink`) before the failure is
reported; the timeout path performs no such removal. -/
theorem claim_C5_unlink_on_write_error (net : Net) (fuel : Nat) (url path m : String)
    (h : (downloadImage net fuel url path).1 = .rejected (.ioError m)) :
    (downloadImage net fuel url path).2 = .absent :=
  downloadImage_ioError_absent net fuel url path m h

/-- Witness for the amended C5: a failed write leaves no file behind. -/
theorem claim_C5_unlink_on_write_error_witness :
    (downloadImage netFsError 1 "http://img.example/a" "media/p1_1_logo.jpg").2 = .absent :=
  claim_C5_unlink_on_write_error netFsError 1 "http://img.example/a" "media/p1_1_logo.jpg"
    "EIO" rfl

/-- Counterexample to **C1** as stated: for a story whose company logo
is an inline `data:` URL, `downloadImage` resolves with `null` without
writing any file ("nothing to fetch"), yet the download loop assigns
`company.logoLocal` anyway — the field is populated although no
successful fetch wrote a file. -/
theorem claim_C1_counterexample :
    ∃ s', processStory netOkFinish 1 dataUrlStory = some s' ∧
      s'.company.logoLocal = some "media/p1_1_logo.jpg" ∧
      (downloadImage netOkFinish 1 dataUrlStory.company.logo
        ("media/" ++ logoFilename dataUrlStory)).1 = .resolved none ∧
      (downloadImage netOkFinish 1 dataUrlStory.company.logo
        ("media/" ++ logoFilename dataUrlStory)).2 = .absent :=
  ⟨_, rfl, rfl, rfl, rfl⟩

/-- **C1 (amended)**: in a completed run, each `*Local` field of an
output record is populated if and only if the corresponding remote URL
was non-empty and the `downloadImage` promise resolved — which includes
both a successful file write and the no-op success for `data:` URLs —
and remains absent when the URL was empty (never attempted) or the fetch
rejected; no placeholder value is ever written. -/
theorem claim_C1_localFields {net : Net} {fuel : Nat} {site : SiteEnv}
    {md : RunMetadata} {out : List Story}
    (h : runPipeline net fuel site = some (md, out)) :
    List.Forall₂ (fun s s' =>
        s'.company.logoLocal =
          (if s.company.logo ≠ "" ∧
              dlResolves (downloadImage net fuel s.company.logo
                ("media/" ++ logoFilename s)).1 = true
            then some ("media/" ++ logoFilename s) else none) ∧
        s'.media.headerImageLocal =
          (if s.media.headerImage ≠ "" ∧
              dlResolves (downloadImage net fuel s.media.headerImage
                ("media/" ++ headerFilename s)).1 = true
            then some ("media/" ++ headerFilename s) else none) ∧
        List.Forall₂ (fun p p' =>
            p'.iconLocal =
              (if p.icon ≠ "" ∧
                  dlResolves (downloadImage net fuel p.icon
                    ("media/" ++ iconFilename s.globalId p)).1 = true
                then some ("media/" ++ iconFilename s.globalId p) else none))
          s.microsoftProducts s'.microsoftProducts)
      (extractionLoop site).2 out := by
  obtain ⟨-, -, -, hproc⟩ := runPipeline_some h
  have hinv := extractionLoop_facts site
  have hf₂ := processAllStories_forall₂ hproc
  refine forall₂_imp_of_mem_left hf₂ ?_
  intro s s' hsm hps
  obtain ⟨-, hl, hh, hpr, -⟩ := hinv.2 s hsm
  obtain ⟨c1, c2, c3⟩ := processStory_char hps hl hh
  refine ⟨c1, c2, ?_⟩
  refine forall₂_imp_of_mem_left c3 ?_
  intro p p' hp himp
  exact himp (hpr p hp)

/-- Witness for the amended C1: a run over a card carrying a logo, a
header image and one product icon, with every download succeeding. -/
theorem claim_C1_localFields_witness :
    ∃ md out, runPipeline netOkFinish 1 assetSite = some (md, out) ∧
      List.Forall₂ (fun s s' =>
          s'.company.logoLocal =
            (if s.company.logo ≠ "" ∧
                dlResolves (downloadImage netOkFinish 1 s.company.logo
                  ("media/" ++ logoFilename s)).1 = true
              then some ("media/" ++ logoFilename s) else none) ∧
          s'.media.headerImageLocal =
            (if s.media.headerImage ≠ "" ∧
                dlResolves (downloadImage netOkFinish 1 s.media.headerImage
                  ("media/" ++ headerFilename s)).1 = true
              then some ("media/" ++ headerFilename s) else none) ∧
          List.Forall₂ (fun p p' =>
              p'.iconLocal =
                (if p.icon ≠ "" ∧
                    dlResolves (downloadImage netOkFinish 1 p.icon
                      ("media/" ++ iconFilename s.globalId p)).1 = true
                  then some ("media/" ++ iconFilename s.globalId p) else none))
            s.microsoftProducts s'.microsoftProducts)
        (extractionLoop assetSite).2 out :=
  ⟨_, _, rfl, @claim_C1_localFields netOkFinish 1 assetSite _ _ rfl⟩

end Scraper
